import Mathlib

/-!
Shallow embedding of the SSAI repository (three research scripts) for
verification of its natural-language specification.

Embedded here:
* `tf2_tutorial_gan_210217.py` — binary cross-entropy losses
  (`cross_entropy`, `discriminator_loss`, `generator_loss`), the concrete
  generator/discriminator architectures, the `train_step` body and the
  epoch driver `train`.
* `stroke_unet.py` — `get_matched_fpath`, `load_images`, `shuffle_ds`,
  `dice_score`, `dice_loss`.

Floating-point arithmetic is embedded over `ℝ`; machine randomness
(latent draws, dropout masks, the shuffling permutation) is passed as an
explicit argument; the filesystem is an explicit environment.
-/

namespace SSAI

/-! ### Binary cross-entropy with logits
`tf.keras.losses.BinaryCrossentropy(from_logits=True)` applied to a
label tensor and a logit tensor of shape `(n, m)`: the per-element loss
is `-(l·log σ(z) + (1-l)·log(1-σ(z)))` and the reduction is the mean
over all elements. -/

noncomputable def sigmoid (z : ℝ) : ℝ := 1 / (1 + Real.exp (-z))

noncomputable def bceLogit (label z : ℝ) : ℝ :=
  -(label * Real.log (sigmoid z) + (1 - label) * Real.log (1 - sigmoid z))

noncomputable def cross_entropy {n m : ℕ} (labels z : Fin n → Fin m → ℝ) : ℝ :=
  (∑ i, ∑ j, bceLogit (labels i j) (z i j)) / (n * m)

/-- `tf.ones_like`: a tensor of ones with the shape of the argument. -/
def onesLike {n m : ℕ} (_x : Fin n → Fin m → ℝ) : Fin n → Fin m → ℝ :=
  fun _ _ => 1

/-- `tf.zeros_like`: a tensor of zeros with the shape of the argument. -/
def zerosLike {n m : ℕ} (_x : Fin n → Fin m → ℝ) : Fin n → Fin m → ℝ :=
  fun _ _ => 0

/-- `discriminator_loss` (tf2_tutorial_gan_210217.py lines 133-137):
cross-entropy of the real scores against ones plus cross-entropy of the
fake scores against zeros. -/
noncomputable def discriminator_loss {n m n' m' : ℕ}
    (real_output : Fin n → Fin m → ℝ) (fake_output : Fin n' → Fin m' → ℝ) : ℝ :=
  let real_loss := cross_entropy (onesLike real_output) real_output
  let fake_loss := cross_entropy (zerosLike fake_output) fake_output
  real_loss + fake_loss

/-- `generator_loss` (tf2_tutorial_gan_210217.py lines 143-144):
cross-entropy of the fake scores against ones. -/
noncomputable def generator_loss {n m : ℕ} (fake_output : Fin n → Fin m → ℝ) : ℝ :=
  cross_entropy (onesLike fake_output) fake_output

/-! Basic facts about the sigmoid and the per-element loss. -/

theorem sigmoid_pos (z : ℝ) : 0 < sigmoid z := by
  unfold sigmoid
  positivity

theorem sigmoid_lt_one (z : ℝ) : sigmoid z < 1 := by
  unfold sigmoid
  rw [div_lt_one (by positivity)]
  linarith [Real.exp_pos (-z)]

theorem bceLogit_one_nonneg (z : ℝ) : 0 ≤ bceLogit 1 z := by
  unfold bceLogit
  have h1 : Real.log (sigmoid z) ≤ 0 :=
    Real.log_nonpos (le_of_lt (sigmoid_pos z)) (le_of_lt (sigmoid_lt_one z))
  nlinarith [h1]

theorem bceLogit_zero_nonneg (z : ℝ) : 0 ≤ bceLogit 0 z := by
  unfold bceLogit
  have h1 : Real.log (1 - sigmoid z) ≤ 0 :=
    Real.log_nonpos (by linarith [sigmoid_lt_one z]) (by linarith [sigmoid_pos z])
  nlinarith [h1]

theorem sigmoid_zero : sigmoid 0 = 1 / 2 := by
  unfold sigmoid
  rw [neg_zero, Real.exp_zero]
  norm_num

theorem bceLogit_one_zero : bceLogit 1 0 = Real.log 2 := by
  unfold bceLogit
  rw [sigmoid_zero]
  rw [show (1 : ℝ) / 2 = 2⁻¹ by norm_num, Real.log_inv]
  ring

theorem bceLogit_zero_zero : bceLogit 0 0 = Real.log 2 := by
  unfold bceLogit
  rw [sigmoid_zero]
  rw [show (1 : ℝ) - 1 / 2 = 2⁻¹ by norm_num, Real.log_inv]
  ring

theorem cross_entropy_ones_nonneg {n m : ℕ} (z : Fin n → Fin m → ℝ) :
    0 ≤ cross_entropy (onesLike z) z := by
  unfold cross_entropy onesLike
  apply div_nonneg
  · exact Finset.sum_nonneg fun i _ =>
      Finset.sum_nonneg fun j _ => bceLogit_one_nonneg (z i j)
  · positivity

theorem cross_entropy_zeros_nonneg {n m : ℕ} (z : Fin n → Fin m → ℝ) :
    0 ≤ cross_entropy (zerosLike z) z := by
  unfold cross_entropy zerosLike
  apply div_nonneg
  · exact Finset.sum_nonneg fun i _ =>
      Finset.sum_nonneg fun j _ => bceLogit_zero_nonneg (z i j)
  · positivity

/-- Mean of a constant per-element loss over a nonempty tensor. -/
theorem cross_entropy_const {n m : ℕ} (hn : 0 < n) (hm : 0 < m)
    (labels z : Fin n → Fin m → ℝ) (l c : ℝ)
    (hl : ∀ i j, labels i j = l) (hz : ∀ i j, z i j = c) :
    cross_entropy labels z = bceLogit l c := by
  unfold cross_entropy
  have : ∀ i : Fin n, ∑ j : Fin m, bceLogit (labels i j) (z i j)
      = m * bceLogit l c := by
    intro i
    rw [Finset.sum_congr rfl (fun j _ => by rw [hl, hz]),
      Finset.sum_const, Finset.card_univ, Fintype.card_fin, nsmul_eq_mul]
  rw [Finset.sum_congr rfl (fun i _ => this i), Finset.sum_const,
    Finset.card_univ, Fintype.card_fin, nsmul_eq_mul]
  have hnm : (n : ℝ) * m ≠ 0 := by
    have : 0 < (n : ℝ) * m := by positivity
    exact ne_of_gt this
  field_simp
  ring

/-! ### Tensors and Keras layers

A rank-3 tensor (height × width × channels) of one sample is a function
on `Fin` indices.  Batches add a leading `Fin B` index.  Strided `same`
padding follows TensorFlow: for a dimension of size `in`, stride `s`,
kernel `k` and output size `out = ⌈in/s⌉`, the total padding is
`max ((out-1)*s + k - in) 0` and the leading padding is its floor half.
For the layers instantiated below (kernel 5) this gives leading padding
1 for stride 2 and 2 for stride 1. -/

def T3 (h w c : ℕ) : Type := Fin h → Fin w → Fin c → ℝ

/-- `layers.Conv2D(cout, (kh, kw), strides=(s, s), padding='same')`:
output pixel `(i, j)` of channel `co` is the bias plus the sum over the
kernel window and input channels, out-of-range taps reading zero. -/
def conv2d {inH inW cin cout kh kw outH outW : ℕ}
    (stride padT padL : ℕ)
    (kernel : Fin kh → Fin kw → Fin cin → Fin cout → ℝ)
    (bias : Fin cout → ℝ) (x : T3 inH inW cin) : T3 outH outW cout :=
  fun i j co =>
    bias co + ∑ di : Fin kh, ∑ dj : Fin kw, ∑ ci : Fin cin,
      (if h : 0 ≤ (i * stride + di - padT : ℤ) ∧ (i * stride + di - padT : ℤ) < inH
            ∧ 0 ≤ (j * stride + dj - padL : ℤ) ∧ (j * stride + dj - padL : ℤ) < inW then
        kernel di dj ci co *
          x ⟨(i * stride + di - padT : ℤ).toNat, by omega⟩
            ⟨(j * stride + dj - padL : ℤ).toNat, by omega⟩ ci
      else 0)

/-- `layers.Conv2DTranspose(cout, (kh, kw), strides=(s, s), padding='same')`
as the transpose of the corresponding strided `same` convolution: output
pixel `o` accumulates `kernel[d] * x[i]` whenever `i*s + d = o + pad`.
The kernel is indexed (row, column, output channel, input channel). -/
def conv2dTranspose {inH inW cin cout kh kw outH outW : ℕ}
    (stride padT padL : ℕ)
    (kernel : Fin kh → Fin kw → Fin cout → Fin cin → ℝ)
    (x : T3 inH inW cin) : T3 outH outW cout :=
  fun r c co =>
    ∑ i : Fin inH, ∑ j : Fin inW, ∑ di : Fin kh, ∑ dj : Fin kw, ∑ ci : Fin cin,
      (if (i : ℕ) * stride + di = r + padT ∧ (j : ℕ) * stride + dj = c + padL then
        kernel di dj co ci * x i j ci
      else 0)

/-- `layers.LeakyReLU()` (Keras default negative slope 0.3). -/
noncomputable def leakyReLU (z : ℝ) : ℝ := if 0 ≤ z then z else 0.3 * z

/-- Elementwise application of an activation to a rank-3 tensor. -/
def mapT3 {h w c : ℕ} (f : ℝ → ℝ) (x : T3 h w c) : T3 h w c :=
  fun i j k => f (x i j k)

/-- `layers.Dropout(rate)` in training mode with an explicit keep mask:
kept units are scaled by `1/(1-rate)`, dropped units become zero. -/
noncomputable def dropout {h w c : ℕ} (rate : ℝ) (mask : Fin h → Fin w → Fin c → Bool)
    (x : T3 h w c) : T3 h w c :=
  fun i j k => if mask i j k then x i j k / (1 - rate) else 0

/-- `layers.Flatten()` on a `(7, 7, 128)` activation, row-major. -/
def flatten_7_7_128 (x : T3 7 7 128) : Fin 6272 → ℝ :=
  fun n =>
    x ⟨n.val / 896, by have h := n.isLt; omega⟩
      ⟨n.val % 896 / 128, by have h := n.isLt; omega⟩
      ⟨n.val % 128, by have h := n.isLt; omega⟩

/-- `layers.Reshape((7, 7, 256))` of a 12544-vector, row-major. -/
def reshape_7_7_256 (v : Fin 12544 → ℝ) : T3 7 7 256 :=
  fun i j k =>
    v ⟨((i : ℕ) * 7 + j) * 256 + k, by
      have hi := i.isLt; have hj := j.isLt; have hk := k.isLt; omega⟩

/-- `layers.Dense(nOut)`: `output = input · kernel + bias` with kernel
shape (in, out). -/
def dense {nIn nOut : ℕ} (kernel : Fin nIn → Fin nOut → ℝ)
    (bias : Fin nOut → ℝ) (v : Fin nIn → ℝ) : Fin nOut → ℝ :=
  fun o => bias o + ∑ i, v i * kernel i o

/-- `layers.Dense(nOut, use_bias=False)`. -/
def denseNoBias {nIn nOut : ℕ} (kernel : Fin nIn → Fin nOut → ℝ)
    (v : Fin nIn → ℝ) : Fin nOut → ℝ :=
  fun o => ∑ i, v i * kernel i o

/-- `layers.BatchNormalization()` in training mode on a `(B, F)` batch:
per-feature standardisation by the batch mean and (biased) variance,
then scale `γ` and shift `β`; `ε = 0.001` (Keras default). -/
noncomputable def batchNorm1d {B F : ℕ} (γ β : Fin F → ℝ)
    (xs : Fin B → Fin F → ℝ) : Fin B → Fin F → ℝ :=
  let μ : Fin F → ℝ := fun f => (∑ b, xs b f) / B
  let var : Fin F → ℝ := fun f => (∑ b, (xs b f - μ f) ^ 2) / B
  fun b f => γ f * (xs b f - μ f) / Real.sqrt (var f + 0.001) + β f

/-- `layers.BatchNormalization()` in training mode on a `(B, h, w, c)`
batch: per-channel statistics over the batch and spatial axes. -/
noncomputable def batchNorm3d {B h w c : ℕ} (γ β : Fin c → ℝ)
    (xs : Fin B → T3 h w c) : Fin B → T3 h w c :=
  let cnt : ℝ := (B * h * w : ℕ)
  let μ : Fin c → ℝ := fun k => (∑ b, ∑ i, ∑ j, xs b i j k) / cnt
  let var : Fin c → ℝ := fun k => (∑ b, ∑ i, ∑ j, (xs b i j k - μ k) ^ 2) / cnt
  fun b i j k => γ k * (xs b i j k - μ k) / Real.sqrt (var k + 0.001) + β k

/-! ### The discriminator (`make_discriminator_model`, lines 100-114)

Conv2D(64, 5×5, stride 2, same) → LeakyReLU → Dropout(0.3)
→ Conv2D(128, 5×5, stride 2, same) → LeakyReLU → Dropout(0.3)
→ Flatten → Dense(1).  Keras initialises the biases to zero and the
kernels randomly, so an untrained model is any `DiscWeights` whose bias
fields are zero. -/

structure DiscWeights where
  conv1K : Fin 5 → Fin 5 → Fin 1 → Fin 64 → ℝ
  conv1B : Fin 64 → ℝ
  conv2K : Fin 5 → Fin 5 → Fin 64 → Fin 128 → ℝ
  conv2B : Fin 128 → ℝ
  denseK : Fin 6272 → Fin 1 → ℝ
  denseB : Fin 1 → ℝ

/-- The two dropout layers' keep masks for one sample. -/
structure DiscMasks where
  m1 : Fin 14 → Fin 14 → Fin 64 → Bool
  m2 : Fin 7 → Fin 7 → Fin 128 → Bool

/-- Forward pass of the discriminator on one 28×28×1 image in training
mode (the dropout masks are explicit inputs). -/
noncomputable def discriminatorForward (w : DiscWeights) (m : DiscMasks)
    (x : T3 28 28 1) : Fin 1 → ℝ :=
  let a1 : T3 14 14 64 := conv2d 2 1 1 w.conv1K w.conv1B x
  let a2 : T3 14 14 64 := mapT3 leakyReLU a1
  let a3 : T3 14 14 64 := dropout 0.3 m.m1 a2
  let a4 : T3 7 7 128 := conv2d 2 1 1 w.conv2K w.conv2B a3
  let a5 : T3 7 7 128 := mapT3 leakyReLU a4
  let a6 : T3 7 7 128 := dropout 0.3 m.m2 a5
  dense w.denseK w.denseB (flatten_7_7_128 a6)

/-! ### The generator (`make_generator_model`, lines 44-86)

Dense(12544, no bias) → BatchNorm → LeakyReLU → Reshape(7,7,256)
→ Conv2DTranspose(128, 5×5, stride 1, same, no bias) → BatchNorm
→ LeakyReLU → Conv2DTranspose(64, 5×5, stride 2, same, no bias)
→ BatchNorm → LeakyReLU → Conv2DTranspose(1, 5×5, stride 2, same,
no bias, tanh).  Training-mode batch normalisation uses the statistics
of the current batch, so the forward pass acts on whole batches.
(The layers' moving statistics, which only affect inference-mode calls,
are not tracked.) -/

structure GenWeights where
  dense1K : Fin 100 → Fin 12544 → ℝ
  bn1γ : Fin 12544 → ℝ
  bn1β : Fin 12544 → ℝ
  convT1K : Fin 5 → Fin 5 → Fin 128 → Fin 256 → ℝ
  bn2γ : Fin 128 → ℝ
  bn2β : Fin 128 → ℝ
  convT2K : Fin 5 → Fin 5 → Fin 64 → Fin 128 → ℝ
  bn3γ : Fin 64 → ℝ
  bn3β : Fin 64 → ℝ
  convT3K : Fin 5 → Fin 5 → Fin 1 → Fin 64 → ℝ

/-- Forward pass of the generator on a batch of latent vectors in
training mode. -/
noncomputable def generatorForward {B : ℕ} (w : GenWeights)
    (noise : Fin B → Fin 100 → ℝ) : Fin B → T3 28 28 1 :=
  let a1 : Fin B → Fin 12544 → ℝ := fun b => denseNoBias w.dense1K (noise b)
  let a2 := batchNorm1d w.bn1γ w.bn1β a1
  let a3 : Fin B → Fin 12544 → ℝ := fun b f => leakyReLU (a2 b f)
  let a4 : Fin B → T3 7 7 256 := fun b => reshape_7_7_256 (a3 b)
  let a5 : Fin B → T3 7 7 128 := fun b => conv2dTranspose 1 2 2 w.convT1K (a4 b)
  let a6 := batchNorm3d w.bn2γ w.bn2β a5
  let a7 : Fin B → T3 7 7 128 := fun b => mapT3 leakyReLU (a6 b)
  let a8 : Fin B → T3 14 14 64 := fun b => conv2dTranspose 2 1 1 w.convT2K (a7 b)
  let a9 := batchNorm3d w.bn3γ w.bn3β a8
  let a10 : Fin B → T3 14 14 64 := fun b => mapT3 leakyReLU (a9 b)
  fun b => mapT3 Real.tanh (conv2dTranspose 2 1 1 w.convT3K (a10 b))

/-! ### `train_step` (tf2_tutorial_gan_210217.py lines 176-196)

The step body is embedded generically over the pieces the script
delegates to the framework: the two models' forward passes, the two
gradient tapes (`tape.gradient(loss, model.trainable_variables)` is an
operator taking the loss as a function of that model's parameters
alone, everything else captured at its current value) and the two Adam
optimizers' `apply_gradients` (a state transformer on the optimizer
slot variables and the parameters).  The in-place mutation of the
module-level `generator`, `discriminator` and optimizer objects becomes
explicit state passing. -/

structure GanConfig (B : ℕ) (GP DP GO DO GG DG N I R : Type) where
  genForward : GP → N → I
  discForward : DP → R → I → (Fin B → Fin 1 → ℝ)
  genGrad : (GP → ℝ) → GP → GG
  discGrad : (DP → ℝ) → DP → DG
  genApplyGradients : GO → GG → GP → GO × GP
  discApplyGradients : DO → DG → DP → DO × DP

/-- The module-level mutable training state: both networks' trainable
variables and both optimizers' slot variables. -/
structure GanState (GP DP GO DO : Type) where
  genParams : GP
  discParams : DP
  genOpt : GO
  discOpt : DO

structure StepResult (GP DP GO DO : Type) where
  gen_loss : ℝ
  disc_loss : ℝ
  state : GanState GP DP GO DO

variable {B : ℕ} {GP DP GO DO GG DG N I R : Type}

/-- The gradient the generator tape returns: `gen_loss` as a function of
the generator's trainable variables only, differentiated at their
current value. -/
noncomputable def genGradOf (cfg : GanConfig B GP DP GO DO GG DG N I R)
    (s : GanState GP DP GO DO) (noise : N) (rFake : R) : GG :=
  cfg.genGrad
    (fun gp => generator_loss (cfg.discForward s.discParams rFake (cfg.genForward gp noise)))
    s.genParams

/-- The gradient the discriminator tape returns: `disc_loss` as a
function of the discriminator's trainable variables only. -/
noncomputable def discGradOf (cfg : GanConfig B GP DP GO DO GG DG N I R)
    (s : GanState GP DP GO DO) (images : I) (noise : N) (rReal rFake : R) : DG :=
  cfg.discGrad
    (fun dp => discriminator_loss (cfg.discForward dp rReal images)
      (cfg.discForward dp rFake (cfg.genForward s.genParams noise)))
    s.discParams

/-- `generator_optimizer.apply_gradients(zip(gradients_of_generator,
generator.trainable_variables))`: writes the generator's parameters and
optimizer slots, and nothing else. -/
def applyGenUpdate (cfg : GanConfig B GP DP GO DO GG DG N I R)
    (s : GanState GP DP GO DO) (g : GG) : GanState GP DP GO DO :=
  let r := cfg.genApplyGradients s.genOpt g s.genParams
  { s with genOpt := r.1, genParams := r.2 }

/-- `discriminator_optimizer.apply_gradients(...)`: writes the
discriminator's parameters and optimizer slots, and nothing else. -/
def applyDiscUpdate (cfg : GanConfig B GP DP GO DO GG DG N I R)
    (s : GanState GP DP GO DO) (g : DG) : GanState GP DP GO DO :=
  let r := cfg.discApplyGradients s.discOpt g s.discParams
  { s with discOpt := r.1, discParams := r.2 }

/-- `train_step(images)`.  The latent draw
`noise = tf.random.normal([BATCH_SIZE, noise_dim])` and the dropout
masks the two discriminator calls consume are the randomness of the
step and are passed explicitly. -/
noncomputable def trainStep (cfg : GanConfig B GP DP GO DO GG DG N I R)
    (s : GanState GP DP GO DO) (images : I) (noise : N)
    (rReal rFake : R) : StepResult GP DP GO DO :=
  let generated_images := cfg.genForward s.genParams noise
  let real_output := cfg.discForward s.discParams rReal images
  let fake_output := cfg.discForward s.discParams rFake generated_images
  let gen_loss := generator_loss fake_output
  let disc_loss := discriminator_loss real_output fake_output
  let gradients_of_generator := genGradOf cfg s noise rFake
  let gradients_of_discriminator := discGradOf cfg s images noise rReal rFake
  { gen_loss := gen_loss
    disc_loss := disc_loss
    state := applyDiscUpdate cfg (applyGenUpdate cfg s gradients_of_generator)
      gradients_of_discriminator }

/-- The randomness one `train_step` call consumes besides the latent
draw: one set of dropout masks per sample for each of the two
discriminator calls. -/
def DiscMasksBatch (B : ℕ) : Type := Fin B → DiscMasks

/-- The script's instantiation: the concrete MNIST generator and
discriminator with `BATCH_SIZE = 256` and `noise_dim = 100`; the
gradient and optimizer operations remain the framework's and are taken
as parameters. -/
noncomputable def mnistGanConfig {GO DO GG DG : Type}
    (genGrad : (GenWeights → ℝ) → GenWeights → GG)
    (discGrad : (DiscWeights → ℝ) → DiscWeights → DG)
    (genApply : GO → GG → GenWeights → GO × GenWeights)
    (discApply : DO → DG → DiscWeights → DO × DiscWeights) :
    GanConfig 256 GenWeights DiscWeights GO DO GG DG
      (Fin 256 → Fin 100 → ℝ) (Fin 256 → T3 28 28 1) (DiscMasksBatch 256) where
  genForward := generatorForward
  discForward := fun w r xs b => discriminatorForward w (r b) (xs b)
  genGrad := genGrad
  discGrad := discGrad
  genApplyGradients := genApply
  discApplyGradients := discApply

/-! ### The epoch driver `train` (lines 199-224)

Per epoch: fold the step function over the dataset's batches, produce
the visualization from the module-level `seed` latent batch (line 166,
sampled once, never reassigned), and save a checkpoint of the whole
training state when `(epoch + 1) % 15 == 0`; after the loop, one final
visualization from the same `seed`. -/

structure EpochEvent (S L : Type) where
  /-- 1-indexed epoch number. -/
  epoch : ℕ
  /-- The latent batch handed to `generate_and_save_images`. -/
  vizLatent : L
  /-- `some` of the saved training state when this epoch wrote a
  checkpoint, `none` otherwise. -/
  checkpoint : Option S
  deriving DecidableEq

structure TrainResult (S L : Type) where
  finalState : S
  events : List (EpochEvent S L)
  /-- The latent batch of the final, post-loop visualization. -/
  finalViz : L
  deriving DecidableEq

def trainLoop {S I L : Type} (stepFn : S → I → S) (dataset : List I)
    (seed : L) : ℕ → ℕ → S → S × List (EpochEvent S L)
  | 0, _, s => (s, [])
  | n + 1, epoch, s =>
    let s' := dataset.foldl stepFn s
    let ev : EpochEvent S L :=
      { epoch := epoch + 1
        vizLatent := seed
        checkpoint := if (epoch + 1) % 15 = 0 then some s' else none }
    let rest := trainLoop stepFn dataset seed n (epoch + 1) s'
    (rest.1, ev :: rest.2)

/-- `train(dataset, epochs)` with the step function, the dataset, the
fixed visualization seed and the initial training state explicit. -/
def train {S I L : Type} (stepFn : S → I → S) (dataset : List I)
    (seed : L) (epochs : ℕ) (s0 : S) : TrainResult S L :=
  let r := trainLoop stepFn dataset seed epochs 0 s0
  { finalState := r.1, events := r.2, finalViz := seed }

theorem trainLoop_length {S I L : Type} (stepFn : S → I → S)
    (dataset : List I) (seed : L) (n epoch : ℕ) (s : S) :
    (trainLoop stepFn dataset seed n epoch s).2.length = n := by
  induction n generalizing epoch s with
  | zero => rfl
  | succ k ih => simpa [trainLoop] using ih _ _

theorem trainLoop_get {S I L : Type} (stepFn : S → I → S)
    (dataset : List I) (seed : L) (n epoch : ℕ) (s : S)
    (i : ℕ) (h : i < (trainLoop stepFn dataset seed n epoch s).2.length) :
    ((trainLoop stepFn dataset seed n epoch s).2.get ⟨i, h⟩).epoch = epoch + i + 1 ∧
    ((trainLoop stepFn dataset seed n epoch s).2.get ⟨i, h⟩).vizLatent = seed ∧
    (((trainLoop stepFn dataset seed n epoch s).2.get ⟨i, h⟩).checkpoint.isSome
      ↔ (epoch + i + 1) % 15 = 0) := by
  induction n generalizing epoch s i with
  | zero => simp [trainLoop] at h
  | succ k ih =>
    cases i with
    | zero =>
      refine ⟨rfl, rfl, ?_⟩
      simp only [trainLoop, List.get]
      split <;> simp_all
    | succ j =>
      have h' : j < (trainLoop stepFn dataset seed k (epoch + 1)
          (dataset.foldl stepFn s)).2.length := by
        simpa [trainLoop, trainLoop_length] using h
      have := ih (epoch + 1) (dataset.foldl stepFn s) j h'
      simp only [trainLoop, List.get] at this ⊢
      refine ⟨?_, ?_, ?_⟩
      · rw [this.1]; omega
      · exact this.2.1
      · rw [this.2.2]; constructor <;> (intro hh; convert hh using 2 <;> omega)

/-! ### `stroke_unet.py`: dataset matching and loading

`os.path` paths are embedded as lists of separator-free components:
`os.path.join dir name` appends a component, `os.path.basename` is the
last component, `os.path.dirname` drops it. -/

abbrev Path : Type := List String

def joinPath (d : Path) (name : String) : Path := d ++ [name]

def basenameP (p : Path) : String := p.getLastD ""

def dirnameP (p : Path) : Path := p.dropLast

/-- First index at which `pat` occurs as a contiguous sublist, if any
(Python `str.index` / the `in` test). -/
def findSub (pat : List Char) : List Char → Option ℕ
  | [] => if pat.isPrefixOf ([] : List Char) then some 0 else none
  | c :: t =>
    if pat.isPrefixOf (c :: t) then some 0
    else (findSub pat t).map (· + 1)

/-- Python `pat in s`. -/
def containsSub (pat s : String) : Bool := (findSub pat.data s.data).isSome

/-- `os.path.splitext(s)[0]`: everything before the last dot (for the
extension-carrying names this script handles; Python's special-casing
of names made only of leading dots is not reproduced). -/
def splitextRoot (s : String) : String :=
  if '.' ∈ s.data then
    String.mk ((s.data.reverse.drop (s.data.reverse.indexOf '.' + 1)).reverse)
  else s

/-- `s[:s.index('DWI')] + 'ADC' + s[s.index('DWI') + 3:]` — replace the
first occurrence of the modality token `DWI` by `ADC`.  Every call site
guards with `'DWI' in s`; absent the token (where Python would raise
`ValueError`) the name is returned unchanged. -/
def subDWItoADC (s : String) : String :=
  match findSub "DWI".data s.data with
  | some k => String.mk (s.data.take k ++ "ADC".data ++ s.data.drop (k + 3))
  | none => s

/-- `get_matched_fpath(is_DWI_only, folder_dir)` (stroke_unet.py lines
54-77) with the two directory listings (`os.walk` filename lists of
`folder_dir/GT` and `folder_dir/input`) passed explicitly.  Both
listings are sorted, then every input name containing `DWI` is kept if
its same-stem `.png` mask exists — and, when `is_DWI_only` is false,
its `ADC` counterpart `.dcm` exists in the input listing — and returned
joined to the input directory. -/
def get_matched_fpath (is_DWI_only : Bool) (folder_dir : Path)
    (img_f mask_f : List String) : List Path :=
  let img_dir := joinPath folder_dir "input"
  let mask_s := mask_f.mergeSort (fun a b => decide (a ≤ b))
  let img_s := img_f.mergeSort (fun a b => decide (a ≤ b))
  (img_s.filter (fun i =>
    containsSub "DWI" i &&
      (let f_dwi := splitextRoot i
       let f_adc := subDWItoADC f_dwi
       if is_DWI_only then decide ((f_dwi ++ ".png") ∈ mask_s)
       else decide ((f_adc ++ ".dcm") ∈ img_s)
         && decide ((f_dwi ++ ".png") ∈ mask_s)))).map (joinPath img_dir)

/-! Mask pixels (`Image.open(...).convert('L')` greyscale values) are
embedded as a rational grid; the claims only inspect the thresholded
values. -/

/-- `y.point(lambda p: p > 0.5)` after the resize: 1 where the pixel
exceeds one half, else 0. -/
def thresholdMask (g : List (List ℚ)) : List (List ℚ) :=
  g.map fun row => row.map fun p => if 1 / 2 < p then 1 else 0

/-- `y.max() == 0.` on a thresholded mask: every entry is zero. -/
def maskAllZero (y : List (List ℚ)) : Bool :=
  y.all fun row => row.all fun v => decide (v = 0)

/-- The mask path `load_images` rebuilds for an input path `f`:
`os.path.join(dirname(dirname(f)), 'GT', splitext(basename(f))[0] + '.png')`. -/
def maskPathFor (f : Path) : Path :=
  joinPath (joinPath (dirnameP (dirnameP f)) "GT") (splitextRoot (basenameP f) ++ ".png")

/-- The filesystem and external image operations `load_images` calls
into, abstracted: mask reading, the PIL resize, DICOM pixel reading,
the scipy zoom rescale, the `/ 2048` normalisation and the channel
concatenation. -/
structure SegFS (Raw : Type) where
  maskPixels : Path → List (List ℚ)
  resizeMask : List (List ℚ) → List (List ℚ)
  dcmPixelArray : Path → Raw
  zoomTo : Raw → Raw
  normalize : Raw → Raw
  stackChannels : Raw → Raw → Raw

/-- The input-image branch of the `load_images` loop body: the
rescaled, normalised DWI alone, or the ADC counterpart concatenated
with the DWI (lines 98-131). -/
def loadInputX {Raw : Type} (fs : SegFS Raw) (is_DWI_only : Bool) (f : Path) : Raw :=
  if is_DWI_only then fs.normalize (fs.zoomTo (fs.dcmPixelArray f))
  else
    let f_adc := joinPath (dirnameP f) (subDWItoADC (basenameP f))
    let x_adc := fs.normalize (fs.zoomTo (fs.dcmPixelArray f_adc))
    let x_dwi := fs.normalize (fs.zoomTo (fs.dcmPixelArray f))
    fs.stackChannels x_adc x_dwi

/-- One iteration of the `load_images` loop: load/resize/threshold the
rebuilt mask; skip the sample (`continue`) when the thresholded mask is
all zero; otherwise produce the aligned input/mask pair. -/
def load_images_item {Raw : Type} (fs : SegFS Raw) (is_DWI_only : Bool)
    (f : Path) : Option (Raw × List (List ℚ)) :=
  let f_mask := maskPathFor f
  let y := thresholdMask (fs.resizeMask (fs.maskPixels f_mask))
  if maskAllZero y then none
  else some (loadInputX fs is_DWI_only f, y)

/-- `load_images(is_DWI_only, fname_dwi, rndcrop_size)` (lines 80-139):
run the loop over all paths and return the aligned input and mask
arrays. -/
def load_images {Raw : Type} (fs : SegFS Raw) (is_DWI_only : Bool)
    (fname_dwi : List Path) : List Raw × List (List (List ℚ)) :=
  let pairs := fname_dwi.filterMap (load_images_item fs is_DWI_only)
  (pairs.map Prod.fst, pairs.map Prod.snd)

/-- `shuffle_ds(x, y)` (lines 169-177): the arrays are fancy-indexed by
one shuffled `arange`, embedded as a permutation of the index type. -/
def shuffle_ds {n : ℕ} {α β : Type} (shuffle_idx : Equiv.Perm (Fin n))
    (x : Fin n → α) (y : Fin n → β) : (Fin n → α) × (Fin n → β) :=
  (fun i => x (shuffle_idx i), fun i => y (shuffle_idx i))

/-- `dice_score(y_true, y_pred)` (lines 181-186): the `tf.reduce_mean`
of the scalar quotient is the scalar itself. -/
noncomputable def dice_score {n : ℕ} (y_true y_pred : Fin n → ℝ) : ℝ :=
  let numerator := 2 * ∑ i, y_true i * y_pred i
  let denominator := ∑ i, (y_true i + y_pred i)
  numerator / (denominator + 1)

/-- `dice_loss(y_true, y_pred)` (lines 189-190). -/
noncomputable def dice_loss {n : ℕ} (y_true y_pred : Fin n → ℝ) : ℝ :=
  1 - dice_score y_true y_pred

/-! ### Claim theorems -/

/-- C1: in each call to `train_step`, the returned discriminator loss is
the binary cross-entropy of the real-batch scores against all-ones
labels plus the binary cross-entropy of the synthetic-batch scores
against all-zeros labels, and the returned generator loss is the binary
cross-entropy of the same synthetic-batch scores against all-ones
labels. -/
theorem C1_train_step_losses {B : ℕ} {GP DP GO DO GG DG N I R : Type}
    (cfg : GanConfig B GP DP GO DO GG DG N I R) (s : GanState GP DP GO DO)
    (images : I) (noise : N) (rReal rFake : R) :
    (trainStep cfg s images noise rReal rFake).disc_loss
      = cross_entropy
          (onesLike (cfg.discForward s.discParams rReal images))
          (cfg.discForward s.discParams rReal images)
        + cross_entropy
          (zerosLike (cfg.discForward s.discParams rFake (cfg.genForward s.genParams noise)))
          (cfg.discForward s.discParams rFake (cfg.genForward s.genParams noise)) ∧
    (trainStep cfg s images noise rReal rFake).gen_loss
      = cross_entropy
          (onesLike (cfg.discForward s.discParams rFake (cfg.genForward s.genParams noise)))
          (cfg.discForward s.discParams rFake (cfg.genForward s.genParams noise)) :=
  ⟨rfl, rfl⟩

/-- C2: per `train_step`, each network receives exactly one gradient
computation (`genGradOf` / `discGradOf`, each differentiating its own
loss with respect to its own parameters only, over the one generated
and one real batch fixed at the start of the step) and exactly one
optimizer application; the generator's update leaves the
discriminator's parameters and optimizer state unchanged, and vice
versa; both losses are computed from the same score tensors of those
batches. -/
theorem C2_train_step_frame {B : ℕ} {GP DP GO DO GG DG N I R : Type}
    (cfg : GanConfig B GP DP GO DO GG DG N I R) (s : GanState GP DP GO DO)
    (images : I) (noise : N) (rReal rFake : R) :
    -- the final state is exactly one generator update followed by
    -- exactly one discriminator update, each fed one tape gradient
    (trainStep cfg s images noise rReal rFake).state
      = applyDiscUpdate cfg
          (applyGenUpdate cfg s (genGradOf cfg s noise rFake))
          (discGradOf cfg s images noise rReal rFake) ∧
    -- the generator's gradient is of the generator loss as a function
    -- of the generator parameters alone, at the step's noise batch
    genGradOf cfg s noise rFake
      = cfg.genGrad
          (fun gp => generator_loss
            (cfg.discForward s.discParams rFake (cfg.genForward gp noise)))
          s.genParams ∧
    -- the discriminator's gradient is of the discriminator loss as a
    -- function of the discriminator parameters alone, at the same batches
    discGradOf cfg s images noise rReal rFake
      = cfg.discGrad
          (fun dp => discriminator_loss (cfg.discForward dp rReal images)
            (cfg.discForward dp rFake (cfg.genForward s.genParams noise)))
          s.discParams ∧
    -- the generator update does not touch the discriminator's state
    ((applyGenUpdate cfg s (genGradOf cfg s noise rFake)).discParams = s.discParams ∧
     (applyGenUpdate cfg s (genGradOf cfg s noise rFake)).discOpt = s.discOpt) ∧
    -- the discriminator update does not touch the generator's state
    ((trainStep cfg s images noise rReal rFake).state.genParams
        = (applyGenUpdate cfg s (genGradOf cfg s noise rFake)).genParams ∧
     (trainStep cfg s images noise rReal rFake).state.genOpt
        = (applyGenUpdate cfg s (genGradOf cfg s noise rFake)).genOpt) ∧
    -- each parameter set is written by exactly one application of its
    -- own optimizer to its own tape gradient
    (trainStep cfg s images noise rReal rFake).state.genParams
      = (cfg.genApplyGradients s.genOpt (genGradOf cfg s noise rFake) s.genParams).2 ∧
    (trainStep cfg s images noise rReal rFake).state.discParams
      = (cfg.discApplyGradients s.discOpt
          (discGradOf cfg s images noise rReal rFake) s.discParams).2 ∧
    -- both returned losses are computed from the same generated and
    -- real batches produced at the start of the step
    (trainStep cfg s images noise rReal rFake).gen_loss
      = generator_loss (cfg.discForward s.discParams rFake (cfg.genForward s.genParams noise)) ∧
    (trainStep cfg s images noise rReal rFake).disc_loss
      = discriminator_loss (cfg.discForward s.discParams rReal images)
          (cfg.discForward s.discParams rFake (cfg.genForward s.genParams noise)) :=
  ⟨rfl, rfl, rfl, ⟨rfl, rfl⟩, ⟨rfl, rfl⟩, rfl, rfl, rfl, rfl⟩

/-- C3: in the epoch driver `train`, the epoch at position `i`
(0-indexed) of the run is the 1-indexed epoch `i + 1`, and it writes a
checkpoint of the training state if and only if `15 ∣ i + 1`. -/
theorem C3_checkpoint_cadence {S I L : Type} (stepFn : S → I → S)
    (dataset : List I) (seed : L) (epochs : ℕ) (s0 : S)
    (i : ℕ) (h : i < epochs) :
    ∃ hlen : i < (train stepFn dataset seed epochs s0).events.length,
      ((train stepFn dataset seed epochs s0).events.get ⟨i, hlen⟩).epoch = i + 1 ∧
      (((train stepFn dataset seed epochs s0).events.get ⟨i, hlen⟩).checkpoint.isSome
        ↔ 15 ∣ (i + 1)) := by
  have hlen : i < (train stepFn dataset seed epochs s0).events.length := by
    show i < (trainLoop stepFn dataset seed epochs 0 s0).2.length
    rw [trainLoop_length]; exact h
  refine ⟨hlen, ?_, ?_⟩
  · have := (trainLoop_get stepFn dataset seed epochs 0 s0 i hlen).1
    simpa using this
  · have := (trainLoop_get stepFn dataset seed epochs 0 s0 i hlen).2.2
    rw [Nat.dvd_iff_mod_eq_zero]
    simpa using this

/-- Witness for C3 at a concrete run: 15 epochs of a trivial step
function; the 15th epoch (index 14) saves a checkpoint. -/
theorem C3_checkpoint_cadence_witness :
    14 < 15 ∧
    ∃ hlen : 14 < (train (fun (s : ℕ) (_ : ℕ) => s) [] 0 15 0).events.length,
      ((train (fun (s : ℕ) (_ : ℕ) => s) [] 0 15 0).events.get ⟨14, hlen⟩).epoch = 15 ∧
      (((train (fun (s : ℕ) (_ : ℕ) => s) [] 0 15 0).events.get ⟨14, hlen⟩).checkpoint.isSome
        ↔ 15 ∣ 15) :=
  ⟨by norm_num,
    C3_checkpoint_cadence (fun (s : ℕ) (_ : ℕ) => s) [] 0 15 0 14 (by norm_num)⟩

/-- C6: the latent batch passed to every per-epoch visualization, and
to the final post-loop visualization, is the module-level `seed` drawn
once before training; the driver never resamples or mutates it. -/
theorem C6_viz_seed_fixed {S I L : Type} (stepFn : S → I → S)
    (dataset : List I) (seed : L) (epochs : ℕ) (s0 : S) :
    (∀ ev ∈ (train stepFn dataset seed epochs s0).events, ev.vizLatent = seed) ∧
    (train stepFn dataset seed epochs s0).finalViz = seed := by
  refine ⟨?_, rfl⟩
  intro ev hev
  obtain ⟨⟨i, hi⟩, rfl⟩ := List.mem_iff_get.mp hev
  exact (trainLoop_get stepFn dataset seed epochs 0 s0 i hi).2.1

/-- Witness for C6 at a concrete run of one epoch with seed 42. -/
theorem C6_viz_seed_fixed_witness :
    ({ epoch := 1, vizLatent := 42, checkpoint := none } : EpochEvent ℕ ℕ).vizLatent = 42 ∧
    (train (fun (s : ℕ) (_ : ℕ) => s) [] 42 1 0).finalViz = 42 :=
  ⟨(C6_viz_seed_fixed (fun (s : ℕ) (_ : ℕ) => s) [] 42 1 0).1
      { epoch := 1, vizLatent := 42, checkpoint := none } (by decide),
    (C6_viz_seed_fixed (fun (s : ℕ) (_ : ℕ) => s) [] 42 1 0).2⟩

/-- C8: `discriminator_loss` is nonnegative for every real-score and
fake-score tensor (it is a sum of two nonnegative cross-entropy
terms), and `generator_loss` is nonnegative for every fake-score
tensor. -/
theorem C8_losses_nonneg :
    (∀ (n m n' m' : ℕ) (ro : Fin n → Fin m → ℝ) (fo : Fin n' → Fin m' → ℝ),
        0 ≤ discriminator_loss ro fo) ∧
    (∀ (n m : ℕ) (fo : Fin n → Fin m → ℝ), 0 ≤ generator_loss fo) := by
  constructor
  · intro n m n' m' ro fo
    exact add_nonneg (cross_entropy_ones_nonneg ro) (cross_entropy_zeros_nonneg fo)
  · intro n m fo
    exact cross_entropy_ones_nonneg fo

/-- C9: `shuffle_ds` reorders the two arrays by one common permutation:
every output position holds an input pair, and the multiset of aligned
(input, label) pairs is preserved. -/
theorem C9_shuffle_ds_aligned {n : ℕ} {α β : Type}
    (shuffle_idx : Equiv.Perm (Fin n)) (x : Fin n → α) (y : Fin n → β) :
    (∀ i, ∃ j, (shuffle_ds shuffle_idx x y).1 i = x j ∧
      (shuffle_ds shuffle_idx x y).2 i = y j) ∧
    Multiset.map
      (fun i => ((shuffle_ds shuffle_idx x y).1 i, (shuffle_ds shuffle_idx x y).2 i))
      Finset.univ.val
      = Multiset.map (fun i => (x i, y i)) Finset.univ.val := by
  constructor
  · intro i
    exact ⟨shuffle_idx i, rfl, rfl⟩
  · have h : Multiset.map (⇑shuffle_idx) Finset.univ.val = Finset.univ.val := by
      have := congrArg Finset.val (Finset.map_univ_equiv shuffle_idx)
      rwa [Finset.map_val] at this
    have hc : (fun i => ((shuffle_ds shuffle_idx x y).1 i, (shuffle_ds shuffle_idx x y).2 i))
        = ((fun i => (x i, y i)) ∘ ⇑shuffle_idx) := rfl
    rw [hc, ← Multiset.map_map, h]

/-- C10: for tensors with nonnegative entries the denominator
`reduce_sum(y_true + y_pred) + 1` of `dice_score` is at least 1, hence
nonzero, so `dice_score` (that quotient) and `dice_loss = 1 -
dice_score` are defined on the whole domain. -/
theorem C10_dice_denominator (n : ℕ) (y_true y_pred : Fin n → ℝ)
    (ht : ∀ i, 0 ≤ y_true i) (hp : ∀ i, 0 ≤ y_pred i) :
    1 ≤ (∑ i, (y_true i + y_pred i)) + 1 ∧
    (∑ i, (y_true i + y_pred i)) + 1 ≠ 0 ∧
    dice_score y_true y_pred
      = (2 * ∑ i, y_true i * y_pred i) / ((∑ i, (y_true i + y_pred i)) + 1) ∧
    dice_loss y_true y_pred = 1 - dice_score y_true y_pred := by
  have hs : 0 ≤ ∑ i, (y_true i + y_pred i) :=
    Finset.sum_nonneg fun i _ => add_nonneg (ht i) (hp i)
  exact ⟨by linarith, by linarith, rfl, rfl⟩

/-- The all-zero 2-pixel tensor, a concrete input for C10's witness. -/
def zeroVec2 : Fin 2 → ℝ := fun _ => 0

/-- Witness for C10 at the all-zero 2-pixel tensors. -/
theorem C10_dice_denominator_witness :
    (∀ i : Fin 2, 0 ≤ zeroVec2 i) ∧
    (1 ≤ (∑ i, (zeroVec2 i + zeroVec2 i)) + 1 ∧
     (∑ i, (zeroVec2 i + zeroVec2 i)) + 1 ≠ 0 ∧
     dice_score zeroVec2 zeroVec2
       = (2 * ∑ i, zeroVec2 i * zeroVec2 i)
          / ((∑ i, (zeroVec2 i + zeroVec2 i)) + 1) ∧
     dice_loss zeroVec2 zeroVec2 = 1 - dice_score zeroVec2 zeroVec2) :=
  ⟨fun _ => le_refl 0,
    C10_dice_denominator 2 zeroVec2 zeroVec2
      (fun _ => le_refl 0) (fun _ => le_refl 0)⟩

/-! ### Zero propagation through the untrained discriminator (for C7) -/

theorem conv2d_zero_in {inH inW cin cout kh kw outH outW : ℕ}
    (stride padT padL : ℕ)
    (kernel : Fin kh → Fin kw → Fin cin → Fin cout → ℝ)
    (bias : Fin cout → ℝ) (hbias : ∀ c, bias c = 0)
    (x : T3 inH inW cin) (hx : ∀ a b c, x a b c = 0)
    (i : Fin outH) (j : Fin outW) (co : Fin cout) :
    conv2d stride padT padL kernel bias x i j co = 0 := by
  unfold conv2d
  rw [hbias, zero_add]
  refine Finset.sum_eq_zero fun di _ => Finset.sum_eq_zero fun dj _ =>
    Finset.sum_eq_zero fun ci _ => ?_
  split
  · rw [hx, mul_zero]
  · rfl

theorem leakyReLU_zero : leakyReLU 0 = 0 := by
  unfold leakyReLU
  norm_num

theorem mapT3_apply {h w c : ℕ} (f : ℝ → ℝ) (x : T3 h w c)
    (i : Fin h) (j : Fin w) (k : Fin c) : mapT3 f x i j k = f (x i j k) := rfl

theorem dropout_apply {h w c : ℕ} (rate : ℝ) (mask : Fin h → Fin w → Fin c → Bool)
    (x : T3 h w c) (i : Fin h) (j : Fin w) (k : Fin c) :
    dropout rate mask x i j k = if mask i j k then x i j k / (1 - rate) else 0 := rfl

/-- On an all-zero 28×28×1 batch image, a discriminator whose biases
are still at their zero initialisation outputs the zero logit for every
dropout mask. -/
theorem discriminatorForward_zero (w : DiscWeights)
    (hb1 : ∀ c, w.conv1B c = 0) (hb2 : ∀ c, w.conv2B c = 0)
    (hb3 : ∀ c, w.denseB c = 0) (m : DiscMasks) (o : Fin 1) :
    discriminatorForward w m (fun _ _ _ => 0) o = 0 := by
  have h1 : ∀ (i : Fin 14) (j : Fin 14) (k : Fin 64),
      (conv2d 2 1 1 w.conv1K w.conv1B ((fun _ _ _ => 0) : T3 28 28 1) : T3 14 14 64) i j k = 0 :=
    fun i j k => conv2d_zero_in 2 1 1 w.conv1K w.conv1B hb1 _ (fun _ _ _ => rfl) i j k
  have h2 : ∀ (i : Fin 14) (j : Fin 14) (k : Fin 64),
      mapT3 leakyReLU (conv2d 2 1 1 w.conv1K w.conv1B ((fun _ _ _ => 0) : T3 28 28 1) : T3 14 14 64)
        i j k = 0 := by
    intro i j k
    unfold mapT3
    rw [h1, leakyReLU_zero]
  have h3 : ∀ (i : Fin 14) (j : Fin 14) (k : Fin 64),
      dropout 0.3 m.m1
        (mapT3 leakyReLU (conv2d 2 1 1 w.conv1K w.conv1B ((fun _ _ _ => 0) : T3 28 28 1)
          : T3 14 14 64)) i j k = 0 := by
    intro i j k
    unfold dropout
    rw [h2]
    split
    · exact zero_div _
    · rfl
  have h4 : ∀ (i : Fin 7) (j : Fin 7) (k : Fin 128),
      (conv2d 2 1 1 w.conv2K w.conv2B
        (dropout 0.3 m.m1
          (mapT3 leakyReLU (conv2d 2 1 1 w.conv1K w.conv1B ((fun _ _ _ => 0) : T3 28 28 1)
            : T3 14 14 64))) : T3 7 7 128) i j k = 0 :=
    fun i j k => conv2d_zero_in 2 1 1 w.conv2K w.conv2B hb2 _ h3 i j k
  have h5 : ∀ (i : Fin 7) (j : Fin 7) (k : Fin 128),
      mapT3 leakyReLU ((conv2d 2 1 1 w.conv2K w.conv2B
        (dropout 0.3 m.m1
          (mapT3 leakyReLU (conv2d 2 1 1 w.conv1K w.conv1B ((fun _ _ _ => 0) : T3 28 28 1)
            : T3 14 14 64))) : T3 7 7 128)) i j k = 0 := by
    intro i j k
    rw [mapT3_apply, h4, leakyReLU_zero]
  have h6 : ∀ (i : Fin 7) (j : Fin 7) (k : Fin 128),
      dropout 0.3 m.m2 (mapT3 leakyReLU ((conv2d 2 1 1 w.conv2K w.conv2B
        (dropout 0.3 m.m1
          (mapT3 leakyReLU (conv2d 2 1 1 w.conv1K w.conv1B ((fun _ _ _ => 0) : T3 28 28 1)
            : T3 14 14 64))) : T3 7 7 128))) i j k = 0 := by
    intro i j k
    rw [dropout_apply, h5]
    split
    · exact zero_div _
    · rfl
  show dense w.denseK w.denseB _ o = 0
  unfold dense
  rw [hb3, zero_add]
  refine Finset.sum_eq_zero fun v _ => ?_
  show flatten_7_7_128 _ v * w.denseK v o = 0
  unfold flatten_7_7_128
  rw [h6, zero_mul]

/-- C7: for an untrained discriminator (zero-initialised biases,
arbitrary kernels, arbitrary dropout masks), a 2-sample batch of
all-zero real images and an all-zero generated batch both score 0 on
every sample, so the discriminator's real-loss term and fake-loss term
each equal `-log(sigmoid 0) = log 2`. -/
theorem C7_untrained_zero_batch (w : DiscWeights)
    (hb1 : ∀ c, w.conv1B c = 0) (hb2 : ∀ c, w.conv2B c = 0)
    (hb3 : ∀ c, w.denseB c = 0) (mReal mFake : Fin 2 → DiscMasks) :
    (∀ (b : Fin 2) (o : Fin 1),
      discriminatorForward w (mReal b) (fun _ _ _ => 0) o = 0) ∧
    (∀ (b : Fin 2) (o : Fin 1),
      discriminatorForward w (mFake b) (fun _ _ _ => 0) o = 0) ∧
    cross_entropy
      (onesLike (fun b => discriminatorForward w (mReal b) (fun _ _ _ => 0)))
      (fun b => discriminatorForward w (mReal b) (fun _ _ _ => 0)) = Real.log 2 ∧
    cross_entropy
      (zerosLike (fun b => discriminatorForward w (mFake b) (fun _ _ _ => 0)))
      (fun b => discriminatorForward w (mFake b) (fun _ _ _ => 0)) = Real.log 2 := by
  have hr : ∀ (b : Fin 2) (o : Fin 1),
      discriminatorForward w (mReal b) (fun _ _ _ => 0) o = 0 :=
    fun b o => discriminatorForward_zero w hb1 hb2 hb3 (mReal b) o
  have hf : ∀ (b : Fin 2) (o : Fin 1),
      discriminatorForward w (mFake b) (fun _ _ _ => 0) o = 0 :=
    fun b o => discriminatorForward_zero w hb1 hb2 hb3 (mFake b) o
  refine ⟨hr, hf, ?_, ?_⟩
  · exact (cross_entropy_const (by norm_num) (by norm_num)
      (onesLike (fun b => discriminatorForward w (mReal b) (fun _ _ _ => 0)))
      (fun b => discriminatorForward w (mReal b) (fun _ _ _ => 0)) 1 0
      (fun _ _ => rfl) hr).trans bceLogit_one_zero
  · exact (cross_entropy_const (by norm_num) (by norm_num)
      (zerosLike (fun b => discriminatorForward w (mFake b) (fun _ _ _ => 0)))
      (fun b => discriminatorForward w (mFake b) (fun _ _ _ => 0)) 0 0
      (fun _ _ => rfl) hf).trans bceLogit_zero_zero

/-- The all-zero (untrained, zero-bias) discriminator weights and
all-keep masks, concrete inputs for C7's witness. -/
noncomputable def zeroDiscW : DiscWeights where
  conv1K := fun _ _ _ _ => 0
  conv1B := fun _ => 0
  conv2K := fun _ _ _ _ => 0
  conv2B := fun _ => 0
  denseK := fun _ _ => 0
  denseB := fun _ => 0

def keepAllMasks : DiscMasks where
  m1 := fun _ _ _ => true
  m2 := fun _ _ _ => true

/-- Witness for C7 at the all-zero weights and all-keep masks. -/
theorem C7_untrained_zero_batch_witness :
    (∀ c, zeroDiscW.conv1B c = 0) ∧
    ((∀ (b : Fin 2) (o : Fin 1),
        discriminatorForward zeroDiscW keepAllMasks (fun _ _ _ => 0) o = 0) ∧
     (∀ (b : Fin 2) (o : Fin 1),
        discriminatorForward zeroDiscW keepAllMasks (fun _ _ _ => 0) o = 0) ∧
     cross_entropy
       (onesLike (fun _ : Fin 2 => discriminatorForward zeroDiscW keepAllMasks (fun _ _ _ => 0)))
       (fun _ : Fin 2 => discriminatorForward zeroDiscW keepAllMasks (fun _ _ _ => 0))
         = Real.log 2 ∧
     cross_entropy
       (zerosLike (fun _ : Fin 2 => discriminatorForward zeroDiscW keepAllMasks (fun _ _ _ => 0)))
       (fun _ : Fin 2 => discriminatorForward zeroDiscW keepAllMasks (fun _ _ _ => 0))
         = Real.log 2) :=
  ⟨fun _ => rfl,
    C7_untrained_zero_batch zeroDiscW (fun _ => rfl) (fun _ => rfl) (fun _ => rfl)
      (fun _ => keepAllMasks) (fun _ => keepAllMasks)⟩

/-! ### A discriminator state whose step output depends on the dropout
draw (for C4) -/

theorem conv2d_zero_kernel {inH inW cin cout kh kw outH outW : ℕ}
    (stride padT padL : ℕ)
    (kernel : Fin kh → Fin kw → Fin cin → Fin cout → ℝ)
    (hk : ∀ a b c d, kernel a b c d = 0)
    (bias : Fin cout → ℝ) (x : T3 inH inW cin)
    (i : Fin outH) (j : Fin outW) (co : Fin cout) :
    conv2d stride padT padL kernel bias x i j co = bias co := by
  unfold conv2d
  have hz : (∑ di : Fin kh, ∑ dj : Fin kw, ∑ ci : Fin cin,
      (if h : 0 ≤ (i * stride + di - padT : ℤ) ∧ (i * stride + di - padT : ℤ) < inH
            ∧ 0 ≤ (j * stride + dj - padL : ℤ) ∧ (j * stride + dj - padL : ℤ) < inW then
        kernel di dj ci co *
          x ⟨(i * stride + di - padT : ℤ).toNat, by omega⟩
            ⟨(j * stride + dj - padL : ℤ).toNat, by omega⟩ ci
      else 0)) = 0 := by
    refine Finset.sum_eq_zero fun di _ => Finset.sum_eq_zero fun dj _ =>
      Finset.sum_eq_zero fun ci _ => ?_
    split
    · rw [hk, zero_mul]
    · rfl
  rw [hz, add_zero]

theorem leakyReLU_one : leakyReLU 1 = 1 := by
  unfold leakyReLU
  norm_num

theorem flatten_7_7_128_zero (x : T3 7 7 128) : flatten_7_7_128 x 0 = x 0 0 0 := by
  unfold flatten_7_7_128
  congr

/-- Discriminator weights under which the logit depends only on the
second dropout layer's mask: zero conv kernels, conv biases 1, a dense
kernel selecting flattened unit 0 and zero dense bias. -/
noncomputable def ceDiscW : DiscWeights where
  conv1K := fun _ _ _ _ => 0
  conv1B := fun _ => 1
  conv2K := fun _ _ _ _ => 0
  conv2B := fun _ => 1
  denseK := fun i _ => if i = 0 then 1 else 0
  denseB := fun _ => 0

/-- Under `ceDiscW` the discriminator's logit on any input image is
`10/7` when the second dropout keeps unit (0,0,0) and `0` when it
drops it. -/
theorem discriminatorForward_ce (m : DiscMasks) (x : T3 28 28 1) (o : Fin 1) :
    discriminatorForward ceDiscW m x o
      = if m.m2 0 0 0 then (10 / 7 : ℝ) else 0 := by
  have h4 : ∀ (i : Fin 7) (j : Fin 7) (k : Fin 128),
      (conv2d 2 1 1 ceDiscW.conv2K ceDiscW.conv2B
        (dropout 0.3 m.m1 (mapT3 leakyReLU
          (conv2d 2 1 1 ceDiscW.conv1K ceDiscW.conv1B x : T3 14 14 64)))
        : T3 7 7 128) i j k = 1 :=
    fun i j k =>
      (conv2d_zero_kernel 2 1 1 ceDiscW.conv2K (fun _ _ _ _ => rfl)
        ceDiscW.conv2B _ i j k).trans rfl
  have h5 : ∀ (i : Fin 7) (j : Fin 7) (k : Fin 128),
      mapT3 leakyReLU ((conv2d 2 1 1 ceDiscW.conv2K ceDiscW.conv2B
        (dropout 0.3 m.m1 (mapT3 leakyReLU
          (conv2d 2 1 1 ceDiscW.conv1K ceDiscW.conv1B x : T3 14 14 64)))
        : T3 7 7 128)) i j k = 1 := by
    intro i j k
    rw [mapT3_apply, h4, leakyReLU_one]
  have h6 : ∀ (i : Fin 7) (j : Fin 7) (k : Fin 128),
      dropout 0.3 m.m2 (mapT3 leakyReLU ((conv2d 2 1 1 ceDiscW.conv2K ceDiscW.conv2B
        (dropout 0.3 m.m1 (mapT3 leakyReLU
          (conv2d 2 1 1 ceDiscW.conv1K ceDiscW.conv1B x : T3 14 14 64)))
        : T3 7 7 128))) i j k = if m.m2 i j k then (10 / 7 : ℝ) else 0 := by
    intro i j k
    rw [dropout_apply, h5]
    split
    · norm_num
    · rfl
  show dense ceDiscW.denseK ceDiscW.denseB _ o = _
  unfold dense
  rw [show ceDiscW.denseB o = 0 from rfl, zero_add]
  have hsum : ∀ v : Fin 6272,
      flatten_7_7_128 (dropout 0.3 m.m2 (mapT3 leakyReLU
        ((conv2d 2 1 1 ceDiscW.conv2K ceDiscW.conv2B
          (dropout 0.3 m.m1 (mapT3 leakyReLU
            (conv2d 2 1 1 ceDiscW.conv1K ceDiscW.conv1B x : T3 14 14 64)))
          : T3 7 7 128)))) v * ceDiscW.denseK v o
      = if v = 0 then
          flatten_7_7_128 (dropout 0.3 m.m2 (mapT3 leakyReLU
            ((conv2d 2 1 1 ceDiscW.conv2K ceDiscW.conv2B
              (dropout 0.3 m.m1 (mapT3 leakyReLU
                (conv2d 2 1 1 ceDiscW.conv1K ceDiscW.conv1B x : T3 14 14 64)))
              : T3 7 7 128)))) v
        else 0 := by
    intro v
    show _ * (if v = 0 then (1:ℝ) else 0) = _
    split
    · rw [mul_one]
    · rw [mul_zero]
  rw [Finset.sum_congr rfl fun v _ => hsum v, Finset.sum_ite_eq' Finset.univ 0]
  rw [if_pos (Finset.mem_univ _), flatten_7_7_128_zero]
  exact h6 0 0 0

/-! The remaining concrete inputs of the C4 counterexample: arbitrary
(all-zero) generator weights, trivial instantiations of the abstract
gradient/optimizer operations (the returned losses do not depend on
them), an all-zero real batch and zero noise, and two dropout draws
differing in the second mask. -/

noncomputable def ceGenW : GenWeights where
  dense1K := fun _ _ => 0
  bn1γ := fun _ => 0
  bn1β := fun _ => 0
  convT1K := fun _ _ _ _ => 0
  bn2γ := fun _ => 0
  bn2β := fun _ => 0
  convT2K := fun _ _ _ _ => 0
  bn3γ := fun _ => 0
  bn3β := fun _ => 0
  convT3K := fun _ _ _ _ => 0

noncomputable def ceConfig :
    GanConfig 256 GenWeights DiscWeights Unit Unit Unit Unit
      (Fin 256 → Fin 100 → ℝ) (Fin 256 → T3 28 28 1) (DiscMasksBatch 256) :=
  mnistGanConfig (fun _ _ => ()) (fun _ _ => ())
    (fun o _ p => (o, p)) (fun o _ p => (o, p))

noncomputable def ceState : GanState GenWeights DiscWeights Unit Unit :=
  { genParams := ceGenW, discParams := ceDiscW, genOpt := (), discOpt := () }

def ceMasksKeep : DiscMasksBatch 256 := fun _ => keepAllMasks

def ceMasksDrop : DiscMasksBatch 256 :=
  fun _ => { m1 := fun _ _ _ => true, m2 := fun _ _ _ => false }

noncomputable def ceImages : Fin 256 → T3 28 28 1 := fun _ _ _ _ => 0

noncomputable def ceNoise : Fin 256 → Fin 100 → ℝ := fun _ _ => 0

theorem bceLogit_one (z : ℝ) : bceLogit 1 z = Real.log (1 + Real.exp (-z)) := by
  unfold bceLogit sigmoid
  rw [one_div, Real.log_inv]
  ring

theorem ce_gen_loss_keep :
    (trainStep ceConfig ceState ceImages ceNoise ceMasksKeep ceMasksKeep).gen_loss
      = Real.log (1 + Real.exp (-(10 / 7 : ℝ))) := by
  show generator_loss
      (fun b => discriminatorForward ceDiscW keepAllMasks
        (generatorForward ceGenW ceNoise b)) = _
  unfold generator_loss
  exact (cross_entropy_const (by norm_num) (by norm_num)
    (onesLike (fun b => discriminatorForward ceDiscW keepAllMasks
      (generatorForward ceGenW ceNoise b)))
    (fun b => discriminatorForward ceDiscW keepAllMasks
      (generatorForward ceGenW ceNoise b))
    1 (10 / 7) (fun _ _ => rfl)
    (fun b o => (discriminatorForward_ce keepAllMasks _ o).trans
      (if_pos rfl))).trans (bceLogit_one _)

theorem ce_gen_loss_drop :
    (trainStep ceConfig ceState ceImages ceNoise ceMasksKeep ceMasksDrop).gen_loss
      = Real.log 2 := by
  show generator_loss
      (fun b => discriminatorForward ceDiscW
        { m1 := fun _ _ _ => true, m2 := fun _ _ _ => false }
        (generatorForward ceGenW ceNoise b)) = _
  unfold generator_loss
  exact (cross_entropy_const (by norm_num) (by norm_num)
    (onesLike (fun b => discriminatorForward ceDiscW
      { m1 := fun _ _ _ => true, m2 := fun _ _ _ => false }
      (generatorForward ceGenW ceNoise b)))
    (fun b => discriminatorForward ceDiscW
      { m1 := fun _ _ _ => true, m2 := fun _ _ _ => false }
      (generatorForward ceGenW ceNoise b))
    1 0 (fun _ _ => rfl)
    (fun b o => (discriminatorForward_ce _ _ o).trans
      (if_neg (by simp)))).trans bceLogit_one_zero

/-- C4 counterexample: two runs of `train_step` on the same real batch,
from the same training state, with the same latent draw but different
dropout draws, return different generator losses — `train_step` is not
deterministic given only the latent draw. -/
theorem C4_counterexample :
    (trainStep ceConfig ceState ceImages ceNoise ceMasksKeep ceMasksKeep).gen_loss
      ≠ (trainStep ceConfig ceState ceImages ceNoise ceMasksKeep ceMasksDrop).gen_loss ∧
    trainStep ceConfig ceState ceImages ceNoise ceMasksKeep ceMasksKeep
      ≠ trainStep ceConfig ceState ceImages ceNoise ceMasksKeep ceMasksDrop := by
  have hne : (trainStep ceConfig ceState ceImages ceNoise ceMasksKeep ceMasksKeep).gen_loss
      ≠ (trainStep ceConfig ceState ceImages ceNoise ceMasksKeep ceMasksDrop).gen_loss := by
    rw [ce_gen_loss_keep, ce_gen_loss_drop]
    have h1 : (0:ℝ) < 1 + Real.exp (-(10 / 7 : ℝ)) := by positivity
    have h2 : 1 + Real.exp (-(10 / 7 : ℝ)) < 2 := by
      have := Real.exp_lt_one_iff.mpr (show -(10 / 7 : ℝ) < 0 by norm_num)
      linarith
    exact ne_of_lt (Real.log_lt_log h1 h2)
  exact ⟨hne, fun h => hne (congrArg StepResult.gen_loss h)⟩

/-- C4 (amended): `train_step` on the concrete MNIST models is
deterministic in the real batch, the latent draw AND the dropout draws:
two runs from identical states with identical randomness return
identical losses and identical resulting states. -/
theorem C4_amended_determinism {GO DO GG DG : Type}
    (genGrad : (GenWeights → ℝ) → GenWeights → GG)
    (discGrad : (DiscWeights → ℝ) → DiscWeights → DG)
    (genApply : GO → GG → GenWeights → GO × GenWeights)
    (discApply : DO → DG → DiscWeights → DO × DiscWeights)
    (s s' : GanState GenWeights DiscWeights GO DO)
    (images images' : Fin 256 → T3 28 28 1)
    (noise noise' : Fin 256 → Fin 100 → ℝ)
    (rReal rFake rReal' rFake' : DiscMasksBatch 256)
    (hs : s = s') (hi : images = images') (hn : noise = noise')
    (hrr : rReal = rReal') (hrf : rFake = rFake') :
    trainStep (mnistGanConfig genGrad discGrad genApply discApply)
        s images noise rReal rFake
      = trainStep (mnistGanConfig genGrad discGrad genApply discApply)
        s' images' noise' rReal' rFake' := by
  subst hs hi hn hrr hrf
  rfl

/-- Witness for the amended C4 at the concrete counterexample inputs. -/
theorem C4_amended_determinism_witness :
    ceState = ceState ∧
    trainStep ceConfig ceState ceImages ceNoise ceMasksKeep ceMasksDrop
      = trainStep ceConfig ceState ceImages ceNoise ceMasksKeep ceMasksDrop :=
  ⟨rfl,
    C4_amended_determinism (fun _ _ => ()) (fun _ _ => ())
      (fun o _ p => (o, p)) (fun o _ p => (o, p))
      ceState ceState ceImages ceImages ceNoise ceNoise
      ceMasksKeep ceMasksDrop ceMasksKeep ceMasksDrop
      rfl rfl rfl rfl rfl⟩

/-! ### Dataset matching guarantees (C5) -/

/-- C5 (amended): every path `get_matched_fpath` returns has a
same-stem `.png` mask file present in the mask listing, and — in
dual-modality mode — its `ADC` counterpart `.dcm` present in the input
listing; `load_images` then drops every sample whose processed mask is
all zero, so every mask array it returns has at least one positive
pixel. -/
theorem C5_amended {Raw : Type} (fs : SegFS Raw) (is_DWI_only : Bool)
    (folder_dir : Path) (img_f mask_f : List String) :
    (∀ p ∈ get_matched_fpath is_DWI_only folder_dir img_f mask_f,
      (splitextRoot (basenameP p) ++ ".png") ∈ mask_f ∧
      (is_DWI_only = false →
        (subDWItoADC (splitextRoot (basenameP p)) ++ ".dcm") ∈ img_f)) ∧
    (∀ y ∈ (load_images fs is_DWI_only
        (get_matched_fpath is_DWI_only folder_dir img_f mask_f)).2,
      maskAllZero y = false) := by
  constructor
  · intro p hp
    unfold get_matched_fpath at hp
    simp only [List.mem_map, List.mem_filter] at hp
    obtain ⟨i, ⟨hin, hcond⟩, rfl⟩ := hp
    have hbase : basenameP (joinPath (joinPath folder_dir "input") i) = i := by
      unfold basenameP joinPath
      exact List.getLastD_concat _ _ _
    rw [hbase]
    rw [Bool.and_eq_true] at hcond
    obtain ⟨_, hcond⟩ := hcond
    have hmask := (List.mergeSort_perm mask_f (fun a b => decide (a ≤ b))).mem_iff
      (a := splitextRoot i ++ ".png")
    have himg := (List.mergeSort_perm img_f (fun a b => decide (a ≤ b))).mem_iff
      (a := subDWItoADC (splitextRoot i) ++ ".dcm")
    cases hdm : is_DWI_only with
    | true =>
      rw [hdm, if_pos rfl] at hcond
      exact ⟨hmask.mp (of_decide_eq_true hcond), fun h => absurd h (by simp)⟩
    | false =>
      rw [hdm, if_neg (by simp)] at hcond
      rw [Bool.and_eq_true] at hcond
      exact ⟨hmask.mp (of_decide_eq_true hcond.2),
        fun _ => himg.mp (of_decide_eq_true hcond.1)⟩
  · intro y hy
    unfold load_images at hy
    simp only [List.mem_map] at hy
    obtain ⟨pair, hpair, rfl⟩ := hy
    obtain ⟨f, _, hsome⟩ := List.mem_filterMap.mp hpair
    simp only [load_images_item] at hsome
    by_cases hz : maskAllZero
        (thresholdMask (fs.resizeMask (fs.maskPixels (maskPathFor f)))) = true
    · rw [if_pos hz] at hsome
      exact absurd hsome (by simp)
    · rw [if_neg hz] at hsome
      obtain rfl := Option.some.inj hsome
      simpa using hz

/-- A filesystem whose every mask file is a single all-zero pixel and
whose resize is the identity, for the C5 counterexample. -/
def emptyMaskFS : SegFS Unit where
  maskPixels := fun _ => [[0]]
  resizeMask := id
  dcmPixelArray := fun _ => ()
  zoomTo := id
  normalize := id
  stackChannels := fun _ _ => ()

/-- C5 counterexample: with input listing `["aDWI.dcm"]`, mask listing
`["aDWI.png"]` and an all-zero mask file, `get_matched_fpath` returns
the path (the mask file exists), yet that path's mask has no positive
pixel — the matching step itself does not enforce mask positivity. -/
theorem C5_counterexample :
    ¬ (∀ p ∈ get_matched_fpath true ["d"] ["aDWI.dcm"] ["aDWI.png"],
        maskAllZero (thresholdMask (emptyMaskFS.resizeMask
          (emptyMaskFS.maskPixels (maskPathFor p)))) = false) := by
  intro hclaim
  have hmem : (["d", "input", "aDWI.dcm"] : Path)
      ∈ get_matched_fpath true ["d"] ["aDWI.dcm"] ["aDWI.png"] := by
    simp only [get_matched_fpath, List.mergeSort_singleton]
    decide
  have := hclaim _ hmem
  simp [emptyMaskFS, thresholdMask, maskAllZero, maskPathFor] at this

/-- A filesystem whose every mask file is a single positive pixel, for
the C5 witness. -/
def posMaskFS : SegFS Unit where
  maskPixels := fun _ => [[1]]
  resizeMask := id
  dcmPixelArray := fun _ => ()
  zoomTo := id
  normalize := id
  stackChannels := fun _ _ => ()

/-- Witness for the amended C5 at concrete singleton listings with a
positive mask file. -/
theorem C5_amended_witness :
    ((splitextRoot (basenameP (["d", "input", "aDWI.dcm"] : Path)) ++ ".png")
        ∈ ["aDWI.png"] ∧
      (true = false →
        (subDWItoADC (splitextRoot (basenameP (["d", "input", "aDWI.dcm"] : Path)))
          ++ ".dcm") ∈ ["aDWI.dcm"])) ∧
    maskAllZero [[(1 : ℚ)]] = false := by
  have hpaths : get_matched_fpath true ["d"] ["aDWI.dcm"] ["aDWI.png"]
      = [["d", "input", "aDWI.dcm"]] := by
    simp only [get_matched_fpath, List.mergeSort_singleton]
    decide
  constructor
  · refine (C5_amended posMaskFS true ["d"] ["aDWI.dcm"] ["aDWI.png"]).1
      ["d", "input", "aDWI.dcm"] ?_
    rw [hpaths]
    exact List.mem_singleton.mpr rfl
  · refine (C5_amended posMaskFS true ["d"] ["aDWI.dcm"] ["aDWI.png"]).2
      [[(1 : ℚ)]] ?_
    rw [hpaths]
    have h1 : thresholdMask (posMaskFS.resizeMask
        (posMaskFS.maskPixels (maskPathFor ["d", "input", "aDWI.dcm"])))
        = [[(1 : ℚ)]] := by
      show thresholdMask [[(1 : ℚ)]] = [[(1 : ℚ)]]
      unfold thresholdMask
      norm_num
    have hitem : load_images_item posMaskFS true ["d", "input", "aDWI.dcm"]
        = some (loadInputX posMaskFS true ["d", "input", "aDWI.dcm"], [[(1 : ℚ)]]) := by
      simp only [load_images_item]
      rw [h1]
      rw [if_neg (by simp [maskAllZero])]
    have h2 : (load_images posMaskFS true [["d", "input", "aDWI.dcm"]]).2
        = [[[(1 : ℚ)]]] := by
      unfold load_images
      show List.map Prod.snd
        (List.filterMap (load_images_item posMaskFS true) [["d", "input", "aDWI.dcm"]])
        = [[[(1 : ℚ)]]]
      rw [List.filterMap_cons_some hitem, List.filterMap_nil]
      rfl
    rw [h2]
    exact List.mem_singleton.mpr rfl

end SSAI
